import Mathlib

/-!
# Location recommendation service: gateway handlers and reference store

A shallow embedding of `internal/handlers/handlers.go` and
`internal/storage/postgres.go`.

* A handler is a function from the incoming request to an `Outcome`: the
  response written to the client, the lines sent to the server log and the
  list of requests with which the recommendation engine was invoked.
* The storage clients and the JSON codec are collaborators; what the handlers
  consume from them is carried by the `Handlers` value.
* `PostgresStorage.GetRegions` and `PostgresStorage.GetBusinessTypes` are
  embedded over a model of a `database/sql` result set.
-/

namespace GoEsAnalytical

/-! ## Errors -/

/-- Modelled from the spec: the error taxonomy of section 7. The sources carry
errors as values of the Go interface `error`; the kinds are named only by the
specification, and `Unexpected` stands for an unclassified error. -/
inductive ErrorKind where
  | InvalidArgument
  | NotFound
  | Unavailable
  | DataIntegrityError
  | Unexpected
deriving DecidableEq, Repr

/-- A Go `error` value: its kind and the text returned by `Error()`. -/
structure GoError where
  kind : ErrorKind
  text : String
deriving DecidableEq, Repr

/-- The wrapping `fmt.Errorf("<context>: %w", err)`: the text is prefixed, the
wrapped error (and so its kind) stays reachable. -/
def GoError.wrap (context : String) (err : GoError) : GoError :=
  { kind := err.kind, text := context ++ ": " ++ err.text }

/-! ## Models (package `models`, declared outside the available sources) -/

/-- The request body of the recommendation endpoint, with the three fields the
handler reads: `Region`, `BusinessType` and `Limit` (a Go `int`). -/
structure RecommendRequest where
  Region : String
  BusinessType : String
  Limit : Int
deriving DecidableEq, Repr

/-- Modelled from the spec: a location document (section 3). `models.Location`
is declared outside the available sources; the handler only copies its values.
The signals and the score are fixed-point integers. -/
structure Location where
  ID : String
  Region : String
  CompetitorDensity : Int
  Demand : Int
  Distance : Int
  Score : Int
deriving DecidableEq, Repr

instance : Inhabited Location := ⟨⟨"", "", 0, 0, 0, 0⟩⟩

/-- The value `models.RecommendResponse` built by the handler. -/
structure RecommendResponse where
  Locations : List Location
  Total : Nat
deriving DecidableEq, Repr

/-- A business type as scanned by `GetBusinessTypes`; timestamps are instants
counted as integers. -/
structure BusinessType where
  ID : Int
  Name : String
  Description : String
  CreatedAt : Int
  UpdatedAt : Int
deriving DecidableEq, Repr

instance : Inhabited BusinessType := ⟨⟨0, "", "", 0, 0⟩⟩

/-- A region as filled by `GetRegions`; `ParentRegionID` is the Go `*int`,
`none` being the nil pointer. -/
structure Region where
  ID : Int
  Name : String
  ParentRegionID : Option Int
  CreatedAt : Int
  UpdatedAt : Int
deriving DecidableEq, Repr

instance : Inhabited Region := ⟨⟨0, "", none, 0, 0⟩⟩

/-! ## HTTP -/

/-- What a handler writes as the body of its response. -/
inductive Payload where
  | text (msg : String)
  | recommend (r : RecommendResponse)
  | location (l : Location)
  | businessTypes (l : List BusinessType)
  | regions (l : List Region)
  | status (s : String)
deriving DecidableEq, Repr

/-- The response seen by the client. -/
structure HttpResponse where
  status : Nat
  contentType : String
  body : Payload
deriving DecidableEq, Repr

/-- The incoming request: method, raw body, and the route variable `id` as
`mux.Vars(r)["id"]` reads it (the empty string when the route has none). -/
structure HttpRequest where
  Method : String
  Body : String
  PathID : String
deriving DecidableEq, Repr

/-- The function `http.Error(w, msg, code)`: a plain-text response carrying
`msg` (the library appends a line break) with status `code`. -/
def httpError (msg : String) (code : Nat) : HttpResponse :=
  { status := code, contentType := "text/plain; charset=utf-8", body := Payload.text msg }

/-- A successfully encoded JSON response: the header set by the handler and the
implicit status 200 of the first write. -/
def jsonOK (p : Payload) : HttpResponse :=
  { status := 200, contentType := "application/json", body := p }

/-- The result of running a handler. -/
structure Outcome where
  response : HttpResponse
  logged : List String
  engineCalls : List RecommendRequest
deriving DecidableEq, Repr

/-! ## Storage clients -/

/-- The search-index client. Its code is outside the available sources; the
handlers consume `RecommendLocations` and `GetLocation`. -/
structure ElasticsearchStorage where
  RecommendLocations : RecommendRequest → Except GoError (List Location)
  GetLocation : String → Except GoError Location

/-- The Go type `sql.NullInt64`. `Int64` holds a 64-bit signed value. -/
structure NullInt64 where
  Int64 : Int
  Valid : Bool
deriving DecidableEq, Repr

/-- The range of the Go type `int64`. -/
def isInt64 (x : Int) : Prop := -(2 : Int) ^ 63 ≤ x ∧ x < (2 : Int) ^ 63

instance (x : Int) : Decidable (isInt64 x) :=
  inferInstanceAs (Decidable (-(2 : Int) ^ 63 ≤ x ∧ x < (2 : Int) ^ 63))

/-- The conversion `int(x)` of an `int64` on a 64-bit target: the value is
reduced into the signed 64-bit range. -/
def intOfInt64 (x : Int) : Int := (x + 2 ^ 63) % 2 ^ 64 - 2 ^ 63

/-- The columns of one row of the regions query, as `rows.Scan` stores them. -/
structure RegionRow where
  ID : Int
  Name : String
  parentID : NullInt64
  CreatedAt : Int
  UpdatedAt : Int
deriving DecidableEq, Repr

/-- A `database/sql` result set as the loop observes it: for each row delivered
by `rows.Next()`, the outcome of `rows.Scan` on it (the scanned columns, or the
scan error), and the value of `rows.Err()` once `Next` has returned false. -/
structure Rows (ρ : Type) where
  scans : List (Except GoError ρ)
  err : Option GoError

/-- The database handle: what `QueryContext` returns for each of the two
queries issued by the storage client. -/
structure DB where
  businessTypes : Except GoError (Rows BusinessType)
  regions : Except GoError (Rows RegionRow)

/-- The reference-store client. -/
structure PostgresStorage where
  db : DB

/-- A Go result pair `(slice, error)`; the nil slice is the empty list. -/
structure Fetched (α : Type) where
  items : List α
  err : Option GoError

/-- The loop of `GetBusinessTypes` over the delivered rows: a scan error
returns at once with a nil slice, otherwise the value is appended. -/
def scanBusinessTypes : List (Except GoError BusinessType) → List BusinessType →
    Fetched BusinessType
  | [], acc => ⟨acc, none⟩
  | Except.error e :: _, _ => ⟨[], some (GoError.wrap "failed to scan business type" e)⟩
  | Except.ok bt :: rest, acc => scanBusinessTypes rest (acc ++ [bt])

/-- The method `PostgresStorage.GetBusinessTypes`. -/
def PostgresStorage.GetBusinessTypes (ps : PostgresStorage) : Fetched BusinessType :=
  match ps.db.businessTypes with
  | Except.error e => ⟨[], some (GoError.wrap "failed to query business types" e)⟩
  | Except.ok rows =>
    let r := scanBusinessTypes rows.scans []
    match r.err with
    | some e => ⟨[], some e⟩
    | none =>
      match rows.err with
      | some e => ⟨[], some (GoError.wrap "error iterating rows" e)⟩
      | none => ⟨r.items, none⟩

/-- The body of the loop of `GetRegions` after a successful scan: a fresh
`models.Region` receives the scanned columns, and its parent pointer is set
only when the scanned `parentID` is valid. -/
def regionOfScan (row : RegionRow) : Region :=
  let r : Region :=
    { (default : Region) with
      ID := row.ID, Name := row.Name, CreatedAt := row.CreatedAt, UpdatedAt := row.UpdatedAt }
  if row.parentID.Valid then
    let parentIDInt := intOfInt64 row.parentID.Int64
    { r with ParentRegionID := some parentIDInt }
  else r

/-- The loop of `GetRegions` over the delivered rows. -/
def scanRegions : List (Except GoError RegionRow) → List Region → Fetched Region
  | [], acc => ⟨acc, none⟩
  | Except.error e :: _, _ => ⟨[], some (GoError.wrap "failed to scan region" e)⟩
  | Except.ok row :: rest, acc => scanRegions rest (acc ++ [regionOfScan row])

/-- The method `PostgresStorage.GetRegions`. -/
def PostgresStorage.GetRegions (ps : PostgresStorage) : Fetched Region :=
  match ps.db.regions with
  | Except.error e => ⟨[], some (GoError.wrap "failed to query regions" e)⟩
  | Except.ok rows =>
    let r := scanRegions rows.scans []
    match r.err with
    | some e => ⟨[], some e⟩
    | none =>
      match rows.err with
      | some e => ⟨[], some (GoError.wrap "error iterating rows" e)⟩
      | none => ⟨r.items, none⟩

/-! ## Handlers -/

/-- The JSON codec as the handlers use it: decoding of the request body
(`none` when `Decode` reports an error) and the error, if any, reported by
`Encode` for a payload. -/
structure Codec where
  decode : String → Option RecommendRequest
  encodeErr : Payload → Option GoError

/-- The receiver of the handlers: the two storage clients, and the codec. -/
structure Handlers where
  esStorage : ElasticsearchStorage
  pgStorage : PostgresStorage
  json : Codec

/-- The copy loop shared by the handlers: a slice of `len(ptrs)` zero values is
made, then element `i` is overwritten with the value behind pointer `i`. -/
def derefAll {α : Type} [Inhabited α] (ptrs : List α) : List α :=
  ptrs.enum.foldl (fun vals p => vals.set p.1 p.2) (List.replicate ptrs.length default)

/-- The tail of every handler: encode the payload, answering 500 with a fixed
text when the encoder reports an error. -/
def writeJSON (h : Handlers) (p : Payload) (calls : List RecommendRequest) : Outcome :=
  match h.json.encodeErr p with
  | some err =>
    { response := httpError "Internal server error" 500,
      logged := ["Error encoding response: " ++ err.text],
      engineCalls := calls }
  | none => { response := jsonOK p, logged := [], engineCalls := calls }

/-- The defaulting of the limit: a zero limit becomes 20, any other value is
kept. -/
def defaultLimit (req : RecommendRequest) : RecommendRequest :=
  if req.Limit = 0 then { req with Limit := 20 } else req

/-- The handler `Handlers.RecommendLocations`. -/
def Handlers.RecommendLocations (h : Handlers) (r : HttpRequest) : Outcome :=
  if r.Method ≠ "POST" then
    { response := httpError "Method not allowed" 405, logged := [], engineCalls := [] }
  else
    match h.json.decode r.Body with
    | none =>
      { response := httpError "Invalid request body" 400, logged := [], engineCalls := [] }
    | some req =>
      if req.Region = "" ∨ req.BusinessType = "" then
        { response := httpError "Region and business_type are required" 400,
          logged := [], engineCalls := [] }
      else
        let req := defaultLimit req
        match h.esStorage.RecommendLocations req with
        | Except.error err =>
          { response := httpError "Internal server error" 500,
            logged := ["Error recommending locations: " ++ err.text],
            engineCalls := [req] }
        | Except.ok locations =>
          let locationValues := derefAll locations
          let response : RecommendResponse :=
            { Locations := locationValues, Total := locationValues.length }
          writeJSON h (Payload.recommend response) [req]

/-- The handler `Handlers.GetLocation`. An error whose text is exactly
"location not found" is answered with 404, any other error with 500. -/
def Handlers.GetLocation (h : Handlers) (r : HttpRequest) : Outcome :=
  if r.Method ≠ "GET" then
    { response := httpError "Method not allowed" 405, logged := [], engineCalls := [] }
  else
    let id := r.PathID
    if id = "" then
      { response := httpError "Location ID is required" 400, logged := [], engineCalls := [] }
    else
      match h.esStorage.GetLocation id with
      | Except.error err =>
        if err.text = "location not found" then
          { response := httpError "Location not found" 404, logged := [], engineCalls := [] }
        else
          { response := httpError "Internal server error" 500,
            logged := ["Error getting location: " ++ err.text],
            engineCalls := [] }
      | Except.ok location => writeJSON h (Payload.location location) []

/-- The handler `Handlers.GetBusinessTypes`. -/
def Handlers.GetBusinessTypes (h : Handlers) (r : HttpRequest) : Outcome :=
  if r.Method ≠ "GET" then
    { response := httpError "Method not allowed" 405, logged := [], engineCalls := [] }
  else
    let res := h.pgStorage.GetBusinessTypes
    match res.err with
    | some err =>
      { response := httpError "Internal server error" 500,
        logged := ["Error getting business types: " ++ err.text],
        engineCalls := [] }
    | none => writeJSON h (Payload.businessTypes (derefAll res.items)) []

/-- The handler `Handlers.GetRegions`. -/
def Handlers.GetRegions (h : Handlers) (r : HttpRequest) : Outcome :=
  if r.Method ≠ "GET" then
    { response := httpError "Method not allowed" 405, logged := [], engineCalls := [] }
  else
    let res := h.pgStorage.GetRegions
    match res.err with
    | some err =>
      { response := httpError "Internal server error" 500,
        logged := ["Error getting regions: " ++ err.text],
        engineCalls := [] }
    | none => writeJSON h (Payload.regions (derefAll res.items)) []

/-- The handler `Handlers.HealthCheck`: the status document, whatever the
request; an error of the encoder is ignored. -/
def Handlers.HealthCheck (_h : Handlers) (_r : HttpRequest) : Outcome :=
  { response := jsonOK (Payload.status "ok"), logged := [], engineCalls := [] }

/-! ## Recommendation engine (specification, section 4.1)

The engine behind `esStorage.RecommendLocations` is outside the available
sources. It is modelled here from the specification, so that the properties of
the ranked result can be stated on the response of the handler. -/

/-- Modelled from the spec: the default limit of the engine, 20 (section 4.1). -/
def engineDefaultLimit : Nat := 20

/-- Modelled from the spec: the maximum limit of the engine. Section 4.1 leaves
it to the implementation and names 200 as its example. -/
def engineMaxLimit : Nat := 200

/-- Modelled from the spec: the over-fetch factor of step 3, 3 in the example
of the spec. -/
def overFetchFactor : Nat := 3

/-- Modelled from the spec: the normalisation of the limit inside the engine
(sections 3 and 4.1). The limit is positive after it: a limit that is unset,
zero or negative becomes the default, a limit above the maximum becomes the
maximum. -/
def normalizeLimit (limit : Int) : Nat :=
  if limit ≤ 0 then engineDefaultLimit
  else if (engineMaxLimit : Int) < limit then engineMaxLimit
  else limit.toNat

/-- Modelled from the spec: what the engine consumes (sections 4.2, 4.3 and 6):
region lookup and expansion, business-type lookup, the index search with the
region scope, the business type and the fetch count, and the scoring function
of a candidate for a business type and a target region. Scores are fixed-point
integers. -/
structure Engine where
  GetRegion : String → Except GoError Region
  ExpandRegion : String → Except GoError (List String)
  GetBusinessType : String → Except GoError BusinessType
  SearchLocations : List String → String → Nat → Except GoError (List Location)
  Score : Location → String → String → Int

/-- Modelled from the spec: the ranking order of step 5 of section 4.1, score
descending, then identifier ascending (identifiers compared character by
character). -/
def rankedBefore (a b : Location) : Prop :=
  b.Score < a.Score ∨ (a.Score = b.Score ∧ a.ID.data ≤ b.ID.data)

instance : DecidableRel rankedBefore :=
  fun a b => inferInstanceAs
    (Decidable (b.Score < a.Score ∨ (a.Score = b.Score ∧ a.ID.data ≤ b.ID.data)))

instance : IsTotal Location rankedBefore where
  total a b := by
    unfold rankedBefore
    rcases lt_trichotomy a.Score b.Score with h | h | h
    · exact Or.inr (Or.inl h)
    · rcases le_total a.ID.data b.ID.data with h2 | h2
      · exact Or.inl (Or.inr ⟨h, h2⟩)
      · exact Or.inr (Or.inr ⟨h.symm, h2⟩)
    · exact Or.inl (Or.inl h)

instance : IsTrans Location rankedBefore where
  trans a b c := by
    unfold rankedBefore
    rintro (h1 | ⟨h1, h1id⟩) (h2 | ⟨h2, h2id⟩)
    · exact Or.inl (lt_trans h2 h1)
    · exact Or.inl (by omega)
    · exact Or.inl (by omega)
    · exact Or.inr ⟨by omega, le_trans h1id h2id⟩

/-- Modelled from the spec: steps 4 to 6 of section 4.1 on the candidates
returned by the index: score each candidate, sort, truncate to the limit. -/
def rankCandidates (e : Engine) (req : RecommendRequest) (limit : Nat)
    (cands : List Location) : List Location :=
  ((cands.map (fun c => { c with Score := e.Score c req.BusinessType req.Region })).insertionSort
    rankedBefore).take limit

/-- Modelled from the spec: the operation `Recommend` of section 4.1. Empty
identifiers are an InvalidArgument; the first failure of a collaborator is
returned as it is and ends the work. -/
def Engine.Recommend (e : Engine) (req : RecommendRequest) : Except GoError (List Location) :=
  if req.Region = "" ∨ req.BusinessType = "" then
    Except.error ⟨ErrorKind.InvalidArgument, "region and business type are required"⟩
  else
    let limit := normalizeLimit req.Limit
    match e.GetRegion req.Region with
    | Except.error err => Except.error err
    | Except.ok _ =>
      match e.ExpandRegion req.Region with
      | Except.error err => Except.error err
      | Except.ok scope =>
        match e.GetBusinessType req.BusinessType with
        | Except.error err => Except.error err
        | Except.ok _ =>
          match e.SearchLocations scope req.BusinessType (overFetchFactor * limit) with
          | Except.error err => Except.error err
          | Except.ok cands => Except.ok (rankCandidates e req limit cands)

/-- The engine as the search-index client of the handlers. -/
def Engine.storage (e : Engine) : ElasticsearchStorage :=
  { RecommendLocations := e.Recommend,
    GetLocation := fun _ => Except.error ⟨ErrorKind.NotFound, "location not found"⟩ }

/-! ## Fixtures for concrete evaluations -/

/-- A codec that decodes every body to the given request and whose encoder
never fails. -/
def constCodec (req : RecommendRequest) : Codec :=
  { decode := fun _ => some req, encodeErr := fun _ => none }

/-- A request for region R1 and business type coffee_shop with the given
limit. -/
def sampleRequest (limit : Int) : RecommendRequest :=
  { Region := "R1", BusinessType := "coffee_shop", Limit := limit }

/-- A POST request. -/
def postRequest : HttpRequest := { Method := "POST", Body := "body", PathID := "" }

/-- A GET request. -/
def getRequest : HttpRequest := { Method := "GET", Body := "", PathID := "" }

/-- A reference store whose two queries return no rows. -/
def emptyStore : PostgresStorage :=
  { db := { businessTypes := Except.ok ⟨[], none⟩, regions := Except.ok ⟨[], none⟩ } }

/-- A reference store whose two queries fail with the given error. -/
def brokenStore (e : GoError) : PostgresStorage :=
  { db := { businessTypes := Except.error e, regions := Except.error e } }

/-- An engine that answers every request with one location whose score records
the limit it was asked for. -/
def echoEngine : ElasticsearchStorage :=
  { RecommendLocations := fun req =>
      Except.ok [{ ID := "L1", Region := req.Region, CompetitorDensity := 0, Demand := 0,
                   Distance := 0, Score := req.Limit }],
    GetLocation := fun _ => Except.error ⟨ErrorKind.NotFound, "location not found"⟩ }

/-- An engine that fails every request with the given error. -/
def failingEngine (e : GoError) : ElasticsearchStorage :=
  { RecommendLocations := fun _ => Except.error e,
    GetLocation := fun _ => Except.error e }

/-- Handlers over the echo engine, decoding every body to `req`. -/
def echoHandlers (req : RecommendRequest) : Handlers :=
  { esStorage := echoEngine, pgStorage := emptyStore, json := constCodec req }

/-- Handlers whose engine and reference store fail with `e`, decoding every
body to the sample request with limit 5. -/
def failingHandlers (e : GoError) : Handlers :=
  { esStorage := failingEngine e, pgStorage := brokenStore e, json := constCodec (sampleRequest 5) }

/-- Handlers that decode the body "zero" to the sample request with limit 0 and
any other body to the sample request with limit 20. -/
def twoBodyHandlers : Handlers :=
  { esStorage := echoEngine, pgStorage := emptyStore,
    json := { decode := fun b => if b = "zero" then some (sampleRequest 0)
                                 else some (sampleRequest 20),
              encodeErr := fun _ => none } }

/-- A candidate of region R1 with the given identifier and signals. -/
def candidate (id : String) (density demand distance : Int) : Location :=
  { ID := id, Region := "R1", CompetitorDensity := density, Demand := demand,
    Distance := distance, Score := 0 }

/-- Twelve candidates of region R1. -/
def twelveCandidates : List Location :=
  [candidate "L01" 3 10 2, candidate "L02" 1 10 0, candidate "L03" 0 4 1,
   candidate "L04" 2 12 1, candidate "L05" 5 10 0, candidate "L06" 0 9 0,
   candidate "L07" 1 3 1, candidate "L08" 4 14 1, candidate "L09" 2 2 2,
   candidate "L10" 0 9 0, candidate "L11" 6 7 0, candidate "L12" 1 8 3]

/-- An engine over a store that knows region R1, without children, and the
business type coffee_shop, and over an index that returns the twelve
candidates; the score is demand minus competitor density minus distance. -/
def sampleEngine : Engine :=
  { GetRegion := fun id =>
      if id = "R1" then Except.ok ⟨1, "R1", none, 0, 0⟩
      else Except.error ⟨ErrorKind.NotFound, "unknown region"⟩,
    ExpandRegion := fun id => Except.ok [id],
    GetBusinessType := fun id =>
      if id = "coffee_shop" then Except.ok ⟨1, "coffee_shop", "", 0, 0⟩
      else Except.error ⟨ErrorKind.NotFound, "unknown business type"⟩,
    SearchLocations := fun _ _ n => Except.ok (twelveCandidates.take n),
    Score := fun c _ _ => c.Demand - c.CompetitorDensity - c.Distance }

/-- Handlers over the sample engine, decoding every body to `req`. -/
def sampleHandlers (req : RecommendRequest) : Handlers :=
  { esStorage := sampleEngine.storage, pgStorage := emptyStore, json := constCodec req }

/-- Two scanned rows of the regions query: a root region, with a NULL parent,
and a region whose parent is region 1. -/
def twoRegionRows : List RegionRow :=
  [{ ID := 1, Name := "Country", parentID := ⟨0, false⟩, CreatedAt := 100, UpdatedAt := 100 },
   { ID := 2, Name := "CityA", parentID := ⟨1, true⟩, CreatedAt := 200, UpdatedAt := 250 }]

/-- A result set whose first row scans and whose second row fails to scan. -/
def brokenRows : Rows RegionRow :=
  { scans := [Except.ok { ID := 1, Name := "Country", parentID := ⟨0, false⟩,
                          CreatedAt := 100, UpdatedAt := 100 },
              Except.error ⟨ErrorKind.Unexpected, "converting NULL to string is unsupported"⟩],
    err := none }

/-! ## Lemmas on the copy loop and the scan loops -/

theorem foldl_set_enumFrom {α : Type} (d : α) (rest : List α) :
    ∀ pre : List α,
      (rest.enumFrom pre.length).foldl (fun vals p => vals.set p.1 p.2)
        (pre ++ List.replicate rest.length d) = pre ++ rest := by
  induction rest with
  | nil => intro pre; simp
  | cons x xs ih =>
    intro pre
    have h := ih (pre ++ [x])
    simp only [List.length_append, List.length_singleton, List.append_assoc,
      List.singleton_append] at h
    simp only [List.enumFrom_cons, List.foldl_cons, List.length_cons, List.replicate_succ]
    rw [List.set_append_right _ _ (le_refl _)]
    simpa using h

theorem derefAll_eq {α : Type} [Inhabited α] (l : List α) : derefAll l = l := by
  have h := foldl_set_enumFrom (default : α) l []
  simpa [derefAll, List.enum] using h

theorem scanRegions_ok (rs : List RegionRow) :
    ∀ acc, (scanRegions (rs.map Except.ok) acc).items = acc ++ rs.map regionOfScan ∧
      (scanRegions (rs.map Except.ok) acc).err = none := by
  induction rs with
  | nil => intro acc; simp [scanRegions]
  | cons r rs ih =>
    intro acc
    simpa [scanRegions] using ih (acc ++ [regionOfScan r])

theorem scanRegions_failed (l : List (Except GoError RegionRow)) :
    ∀ acc e, Except.error e ∈ l → (scanRegions l acc).err.isSome := by
  induction l with
  | nil => intro acc e h; simp at h
  | cons x xs ih =>
    intro acc e h
    cases x with
    | error e0 => simp [scanRegions]
    | ok row =>
      have h2 : Except.error e ∈ xs := by simpa using h
      simpa [scanRegions] using ih _ e h2

theorem intOfInt64_eq (x : Int) (h : isInt64 x) : intOfInt64 x = x := by
  unfold isInt64 at h
  unfold intOfInt64
  have h1 : (0 : Int) ≤ x + 2 ^ 63 := by linarith [h.1]
  have h2 : x + 2 ^ 63 < (2 : Int) ^ 64 := by
    have : (2 : Int) ^ 64 = 2 ^ 63 + 2 ^ 63 := by norm_num
    linarith [h.2]
  rw [Int.emod_eq_of_lt h1 h2]
  ring

theorem defaultLimit_region (req : RecommendRequest) :
    (defaultLimit req).Region = req.Region ∧ (defaultLimit req).BusinessType = req.BusinessType := by
  unfold defaultLimit; split <;> simp

/-- The handler on an accepted request: the engine is invoked once, with the
defaulted request, and the response is decided by its result. -/
theorem recommend_accepted (h : Handlers) (r : HttpRequest) (req : RecommendRequest)
    (hm : r.Method = "POST") (hd : h.json.decode r.Body = some req)
    (hr : req.Region ≠ "") (hb : req.BusinessType ≠ "") :
    h.RecommendLocations r =
      match h.esStorage.RecommendLocations (defaultLimit req) with
      | Except.error err =>
        { response := httpError "Internal server error" 500,
          logged := ["Error recommending locations: " ++ err.text],
          engineCalls := [defaultLimit req] }
      | Except.ok locations =>
        writeJSON h (Payload.recommend { Locations := locations, Total := locations.length })
          [defaultLimit req] := by
  simp [Handlers.RecommendLocations, hm, hd, hr, hb, derefAll_eq]

theorem writeJSON_calls (h : Handlers) (p : Payload) (calls : List RecommendRequest) :
    (writeJSON h p calls).engineCalls = calls := by
  unfold writeJSON; split <;> rfl

theorem writeJSON_status (h : Handlers) (p : Payload) (calls : List RecommendRequest) :
    (writeJSON h p calls).response.status = 200 ∨ (writeJSON h p calls).response.status = 500 := by
  unfold writeJSON; split <;> simp [httpError, jsonOK]

theorem recommend_accepted_calls (h : Handlers) (r : HttpRequest) (req : RecommendRequest)
    (hm : r.Method = "POST") (hd : h.json.decode r.Body = some req)
    (hr : req.Region ≠ "") (hb : req.BusinessType ≠ "") :
    (h.RecommendLocations r).engineCalls = [defaultLimit req] := by
  rw [recommend_accepted h r req hm hd hr hb]
  split
  · rfl
  · exact writeJSON_calls _ _ _

theorem recommend_accepted_status (h : Handlers) (r : HttpRequest) (req : RecommendRequest)
    (hm : r.Method = "POST") (hd : h.json.decode r.Body = some req)
    (hr : req.Region ≠ "") (hb : req.BusinessType ≠ "") :
    (h.RecommendLocations r).response.status = 200 ∨
      (h.RecommendLocations r).response.status = 500 := by
  rw [recommend_accepted h r req hm hd hr hb]
  split
  · right; rfl
  · exact writeJSON_status _ _ _

theorem recommend_rejected (h : Handlers) (r : HttpRequest) (req : RecommendRequest)
    (hm : r.Method = "POST") (hd : h.json.decode r.Body = some req)
    (he : req.Region = "" ∨ req.BusinessType = "") :
    h.RecommendLocations r =
      { response := httpError "Region and business_type are required" 400,
        logged := [], engineCalls := [] } := by
  simp [Handlers.RecommendLocations, hm, hd, he]

/-! ## The limit passed to the engine -/

/-- C1: on a POST whose body decodes to a request with non-empty region and
business type and limit 0, the engine is invoked (once) with limit 20 and the
same region and business type, and the whole outcome, response included, is
that of the same request sent with limit 20. -/
theorem recommend_zero_limit_is_twenty (h : Handlers) (r r20 : HttpRequest)
    (req : RecommendRequest)
    (hm : r.Method = "POST") (hm20 : r20.Method = "POST")
    (hd : h.json.decode r.Body = some req)
    (hd20 : h.json.decode r20.Body = some { req with Limit := 20 })
    (hr : req.Region ≠ "") (hb : req.BusinessType ≠ "") (hl : req.Limit = 0) :
    (h.RecommendLocations r).engineCalls =
        [{ Region := req.Region, BusinessType := req.BusinessType, Limit := 20 }] ∧
      (h.RecommendLocations r).response = (h.RecommendLocations r20).response ∧
      h.RecommendLocations r = h.RecommendLocations r20 := by
  have e1 : defaultLimit req = { req with Limit := 20 } := by simp [defaultLimit, hl]
  have e2 : defaultLimit { req with Limit := 20 } = { req with Limit := 20 } := by
    simp [defaultLimit]
  have a1 := recommend_accepted h r req hm hd hr hb
  have a2 := recommend_accepted h r20 { req with Limit := 20 } hm20 hd20 hr hb
  rw [e1] at a1
  rw [e2] at a2
  have heq : h.RecommendLocations r = h.RecommendLocations r20 := by rw [a1, a2]
  refine ⟨?_, by rw [heq], heq⟩
  rw [recommend_accepted_calls h r req hm hd hr hb, e1]

theorem recommend_zero_limit_is_twenty_witness :
    (twoBodyHandlers.RecommendLocations ⟨"POST", "zero", ""⟩).engineCalls =
        [{ Region := "R1", BusinessType := "coffee_shop", Limit := 20 }] ∧
      (twoBodyHandlers.RecommendLocations ⟨"POST", "zero", ""⟩).response =
        (twoBodyHandlers.RecommendLocations ⟨"POST", "twenty", ""⟩).response ∧
      twoBodyHandlers.RecommendLocations ⟨"POST", "zero", ""⟩ =
        twoBodyHandlers.RecommendLocations ⟨"POST", "twenty", ""⟩ :=
  recommend_zero_limit_is_twenty twoBodyHandlers ⟨"POST", "zero", ""⟩ ⟨"POST", "twenty", ""⟩
    (sampleRequest 0) rfl rfl (by decide) (by decide) (by decide) (by decide) rfl

/-- C2: on a POST whose body decodes, the answer is 400 exactly when region or
business type is empty, the engine is left uninvoked exactly in that case, and
with both non-empty the engine is invoked exactly once. -/
theorem recommend_required_fields (h : Handlers) (r : HttpRequest) (req : RecommendRequest)
    (hm : r.Method = "POST") (hd : h.json.decode r.Body = some req) :
    ((h.RecommendLocations r).response.status = 400 ↔
        (req.Region = "" ∨ req.BusinessType = "")) ∧
      ((h.RecommendLocations r).engineCalls = [] ↔
        (req.Region = "" ∨ req.BusinessType = "")) ∧
      (req.Region ≠ "" ∧ req.BusinessType ≠ "" →
        (h.RecommendLocations r).engineCalls.length = 1) := by
  by_cases he : req.Region = "" ∨ req.BusinessType = ""
  · have hrej := recommend_rejected h r req hm hd he
    refine ⟨?_, ?_, ?_⟩
    · simp [hrej, httpError, he]
    · simp [hrej, he]
    · intro hne
      rcases he with he | he
      · exact absurd he hne.1
      · exact absurd he hne.2
  · have hr : req.Region ≠ "" := fun x => he (Or.inl x)
    have hb : req.BusinessType ≠ "" := fun x => he (Or.inr x)
    have hc := recommend_accepted_calls h r req hm hd hr hb
    have hs := recommend_accepted_status h r req hm hd hr hb
    refine ⟨?_, ?_, ?_⟩
    · constructor
      · intro h4
        rcases hs with hs | hs <;> rw [hs] at h4 <;> exact absurd h4 (by decide)
      · intro h4; exact absurd h4 he
    · constructor
      · intro h0; rw [hc] at h0; exact absurd h0 (by simp)
      · intro h4; exact absurd h4 he
    · intro _; rw [hc]; rfl

theorem recommend_required_fields_witness :
    (((echoHandlers ⟨"", "coffee_shop", 5⟩).RecommendLocations postRequest).response.status = 400 ↔
        (("" : String) = "" ∨ ("coffee_shop" : String) = "")) ∧
      (((echoHandlers ⟨"", "coffee_shop", 5⟩).RecommendLocations postRequest).engineCalls = [] ↔
        (("" : String) = "" ∨ ("coffee_shop" : String) = "")) ∧
      (("" : String) ≠ "" ∧ ("coffee_shop" : String) ≠ "" →
        ((echoHandlers ⟨"", "coffee_shop", 5⟩).RecommendLocations postRequest).engineCalls.length
          = 1) :=
  recommend_required_fields (echoHandlers ⟨"", "coffee_shop", 5⟩) postRequest
    ⟨"", "coffee_shop", 5⟩ rfl rfl

/-- C3, as amended: on an accepted request the engine is invoked once with the
defaulted request, whose limit is 20 for a requested 0 and the requested value
otherwise; that limit is positive exactly when the requested limit is not
negative. -/
theorem recommend_limit_positive_iff (h : Handlers) (r : HttpRequest) (req : RecommendRequest)
    (hm : r.Method = "POST") (hd : h.json.decode r.Body = some req)
    (hr : req.Region ≠ "") (hb : req.BusinessType ≠ "") :
    ∃ q, (h.RecommendLocations r).engineCalls = [q] ∧
      q.Limit = (if req.Limit = 0 then 20 else req.Limit) ∧
      (0 < q.Limit ↔ 0 ≤ req.Limit) := by
  refine ⟨defaultLimit req, recommend_accepted_calls h r req hm hd hr hb, ?_, ?_⟩
  · unfold defaultLimit; split <;> rfl
  · unfold defaultLimit
    split
    · rename_i h0; simp [h0]
    · rename_i h0; omega

theorem recommend_limit_positive_iff_witness :
    ∃ q, ((echoHandlers (sampleRequest 7)).RecommendLocations postRequest).engineCalls = [q] ∧
      q.Limit = (if (sampleRequest 7).Limit = 0 then 20 else (sampleRequest 7).Limit) ∧
      (0 < q.Limit ↔ 0 ≤ (sampleRequest 7).Limit) :=
  recommend_limit_positive_iff (echoHandlers (sampleRequest 7)) postRequest (sampleRequest 7)
    rfl rfl (by decide) (by decide)

/-- C3, counterexample: the accepted request for R1 and coffee_shop with limit
-5 reaches the engine with limit -5, which is not positive. -/
theorem recommend_negative_limit_reaches_engine :
    ((echoHandlers (sampleRequest (-5))).RecommendLocations postRequest).engineCalls =
        [{ Region := "R1", BusinessType := "coffee_shop", Limit := -5 }] ∧
      ¬ (0 < ({ Region := "R1", BusinessType := "coffee_shop", Limit := -5 } :
          RecommendRequest).Limit) := by
  decide

/-- C4, as amended: the handler applies no maximum. On an accepted request
whose limit is not 0 the engine is invoked once with exactly the decoded
request, whatever the size of its limit. -/
theorem recommend_limit_passed_through (h : Handlers) (r : HttpRequest) (req : RecommendRequest)
    (hm : r.Method = "POST") (hd : h.json.decode r.Body = some req)
    (hr : req.Region ≠ "") (hb : req.BusinessType ≠ "") (hl : req.Limit ≠ 0) :
    (h.RecommendLocations r).engineCalls = [req] := by
  rw [recommend_accepted_calls h r req hm hd hr hb]
  simp [defaultLimit, hl]

theorem recommend_limit_passed_through_witness :
    ((echoHandlers (sampleRequest 100000)).RecommendLocations postRequest).engineCalls =
      [sampleRequest 100000] :=
  recommend_limit_passed_through (echoHandlers (sampleRequest 100000)) postRequest
    (sampleRequest 100000) rfl rfl (by decide) (by decide) (by decide)

/-- C4, counterexample: the accepted request with limit 1000 reaches the engine
with limit 1000, above the maximum 200 of the specification, and with no limit
M below the requested 1000 in its place. -/
theorem recommend_limit_not_capped :
    ((echoHandlers (sampleRequest 1000)).RecommendLocations postRequest).engineCalls =
        [{ Region := "R1", BusinessType := "coffee_shop", Limit := 1000 }] ∧
      ¬ ((1000 : Int) ≤ 200) ∧
      ∀ M : Int, M < 1000 →
        ((echoHandlers (sampleRequest 1000)).RecommendLocations postRequest).engineCalls ≠
          [{ Region := "R1", BusinessType := "coffee_shop", Limit := M }] := by
  have h1 : ((echoHandlers (sampleRequest 1000)).RecommendLocations postRequest).engineCalls =
      [{ Region := "R1", BusinessType := "coffee_shop", Limit := 1000 }] := by decide
  refine ⟨h1, by decide, ?_⟩
  intro M hM hcontra
  rw [h1] at hcontra
  simp at hcontra
  omega

/-! ## Engine and store failures -/

theorem recommend_engine_failure (h : Handlers) (r : HttpRequest) (req : RecommendRequest)
    (err : GoError)
    (hm : r.Method = "POST") (hd : h.json.decode r.Body = some req)
    (hr : req.Region ≠ "") (hb : req.BusinessType ≠ "")
    (hf : h.esStorage.RecommendLocations (defaultLimit req) = Except.error err) :
    h.RecommendLocations r =
      { response := httpError "Internal server error" 500,
        logged := ["Error recommending locations: " ++ err.text],
        engineCalls := [defaultLimit req] } := by
  rw [recommend_accepted h r req hm hd hr hb, hf]

theorem getBusinessTypes_store_failure (h : Handlers) (r : HttpRequest) (err : GoError)
    (hm : r.Method = "GET") (hf : h.pgStorage.GetBusinessTypes.err = some err) :
    h.GetBusinessTypes r =
      { response := httpError "Internal server error" 500,
        logged := ["Error getting business types: " ++ err.text],
        engineCalls := [] } := by
  simp [Handlers.GetBusinessTypes, hm, hf]

theorem getRegions_store_failure (h : Handlers) (r : HttpRequest) (err : GoError)
    (hm : r.Method = "GET") (hf : h.pgStorage.GetRegions.err = some err) :
    h.GetRegions r =
      { response := httpError "Internal server error" 500,
        logged := ["Error getting regions: " ++ err.text],
        engineCalls := [] } := by
  simp [Handlers.GetRegions, hm, hf]

/-- C5, as amended: when the engine call made by RecommendLocations fails, the
status of the response is 500 whatever the kind of the error. -/
theorem recommend_engine_failure_status (h : Handlers) (r : HttpRequest)
    (req : RecommendRequest) (err : GoError)
    (hm : r.Method = "POST") (hd : h.json.decode r.Body = some req)
    (hr : req.Region ≠ "") (hb : req.BusinessType ≠ "")
    (hf : h.esStorage.RecommendLocations (defaultLimit req) = Except.error err) :
    (h.RecommendLocations r).response.status = 500 := by
  rw [recommend_engine_failure h r req err hm hd hr hb hf]
  rfl

theorem recommend_engine_failure_status_witness :
    ((failingHandlers ⟨ErrorKind.Unavailable, "index unreachable"⟩).RecommendLocations
      postRequest).response.status = 500 :=
  recommend_engine_failure_status (failingHandlers ⟨ErrorKind.Unavailable, "index unreachable"⟩)
    postRequest (sampleRequest 5) ⟨ErrorKind.Unavailable, "index unreachable"⟩
    rfl rfl (by decide) (by decide) rfl

/-- C5, counterexample: an engine failing with a NotFound error is answered
with 500, not 404, and one failing with an Unavailable error is answered with
500, not 503. -/
theorem recommend_not_found_is_500 :
    ((failingHandlers ⟨ErrorKind.NotFound, "unknown region"⟩).RecommendLocations
        postRequest).response.status = 500 ∧
      ((failingHandlers ⟨ErrorKind.NotFound, "unknown region"⟩).RecommendLocations
        postRequest).response.status ≠ 404 ∧
      ((failingHandlers ⟨ErrorKind.Unavailable, "index unreachable"⟩).RecommendLocations
        postRequest).response.status = 500 ∧
      ((failingHandlers ⟨ErrorKind.Unavailable, "index unreachable"⟩).RecommendLocations
        postRequest).response.status ≠ 503 := by
  decide

/-- C8: for every successful engine result, the response built by
RecommendLocations carries exactly the values of that result, in the same
order, and their number as Total; it is what the client receives, with status
200, when the encoder accepts it. -/
theorem recommend_response_copies_result (h : Handlers) (r : HttpRequest)
    (req : RecommendRequest) (locations : List Location)
    (hm : r.Method = "POST") (hd : h.json.decode r.Body = some req)
    (hr : req.Region ≠ "") (hb : req.BusinessType ≠ "")
    (hok : h.esStorage.RecommendLocations (defaultLimit req) = Except.ok locations) :
    derefAll locations = locations ∧
      h.RecommendLocations r =
        writeJSON h (Payload.recommend { Locations := locations, Total := locations.length })
          [defaultLimit req] ∧
      (h.json.encodeErr
          (Payload.recommend { Locations := locations, Total := locations.length }) = none →
        (h.RecommendLocations r).response =
          jsonOK (Payload.recommend { Locations := locations, Total := locations.length })) := by
  have ha := recommend_accepted h r req hm hd hr hb
  rw [hok] at ha
  refine ⟨derefAll_eq locations, ha, ?_⟩
  intro henc
  rw [ha]
  simp [writeJSON, henc]

theorem recommend_response_copies_result_witness :
    ((echoHandlers (sampleRequest 5)).RecommendLocations postRequest).response =
      jsonOK (Payload.recommend
        { Locations := [{ ID := "L1", Region := "R1", CompetitorDensity := 0, Demand := 0,
                          Distance := 0, Score := 5 }],
          Total := 1 }) :=
  (recommend_response_copies_result (echoHandlers (sampleRequest 5)) postRequest
    (sampleRequest 5)
    [{ ID := "L1", Region := "R1", CompetitorDensity := 0, Demand := 0, Distance := 0,
       Score := 5 }]
    rfl rfl (by decide) (by decide) rfl).2.2 rfl

/-- C9: whatever two errors the engine, or the reference store, return, the
responses of RecommendLocations, GetBusinessTypes and GetRegions are the same:
status 500 with the fixed text "Internal server error". The text of the error
goes to the server log only. -/
theorem error_response_independent_of_error (h1 h2 : Handlers) (r g : HttpRequest)
    (req : RecommendRequest) (e1 e2 b1 b2 g1 g2 : GoError)
    (hm : r.Method = "POST")
    (hd1 : h1.json.decode r.Body = some req) (hd2 : h2.json.decode r.Body = some req)
    (hr : req.Region ≠ "") (hb : req.BusinessType ≠ "")
    (hf1 : h1.esStorage.RecommendLocations (defaultLimit req) = Except.error e1)
    (hf2 : h2.esStorage.RecommendLocations (defaultLimit req) = Except.error e2)
    (hg : g.Method = "GET")
    (hb1 : h1.pgStorage.GetBusinessTypes.err = some b1)
    (hb2 : h2.pgStorage.GetBusinessTypes.err = some b2)
    (hg1 : h1.pgStorage.GetRegions.err = some g1)
    (hg2 : h2.pgStorage.GetRegions.err = some g2) :
    ((h1.RecommendLocations r).response = (h2.RecommendLocations r).response ∧
        (h1.RecommendLocations r).response = httpError "Internal server error" 500) ∧
      ((h1.GetBusinessTypes g).response = (h2.GetBusinessTypes g).response ∧
        (h1.GetBusinessTypes g).response = httpError "Internal server error" 500) ∧
      ((h1.GetRegions g).response = (h2.GetRegions g).response ∧
        (h1.GetRegions g).response = httpError "Internal server error" 500) := by
  rw [recommend_engine_failure h1 r req e1 hm hd1 hr hb hf1,
    recommend_engine_failure h2 r req e2 hm hd2 hr hb hf2,
    getBusinessTypes_store_failure h1 g b1 hg hb1,
    getBusinessTypes_store_failure h2 g b2 hg hb2,
    getRegions_store_failure h1 g g1 hg hg1,
    getRegions_store_failure h2 g g2 hg hg2]
  exact ⟨⟨rfl, rfl⟩, ⟨rfl, rfl⟩, ⟨rfl, rfl⟩⟩

theorem error_response_independent_of_error_witness :
    (((failingHandlers ⟨ErrorKind.NotFound, "no such region: R1"⟩).RecommendLocations
          postRequest).response =
        ((failingHandlers ⟨ErrorKind.Unavailable, "dial tcp 10.0.0.7:9200"⟩).RecommendLocations
          postRequest).response ∧
      ((failingHandlers ⟨ErrorKind.NotFound, "no such region: R1"⟩).RecommendLocations
          postRequest).response = httpError "Internal server error" 500) ∧
    (((failingHandlers ⟨ErrorKind.NotFound, "no such region: R1"⟩).GetBusinessTypes
          getRequest).response =
        ((failingHandlers ⟨ErrorKind.Unavailable, "dial tcp 10.0.0.7:9200"⟩).GetBusinessTypes
          getRequest).response ∧
      ((failingHandlers ⟨ErrorKind.NotFound, "no such region: R1"⟩).GetBusinessTypes
          getRequest).response = httpError "Internal server error" 500) ∧
    (((failingHandlers ⟨ErrorKind.NotFound, "no such region: R1"⟩).GetRegions
          getRequest).response =
        ((failingHandlers ⟨ErrorKind.Unavailable, "dial tcp 10.0.0.7:9200"⟩).GetRegions
          getRequest).response ∧
      ((failingHandlers ⟨ErrorKind.NotFound, "no such region: R1"⟩).GetRegions
          getRequest).response = httpError "Internal server error" 500) :=
  error_response_independent_of_error
    (failingHandlers ⟨ErrorKind.NotFound, "no such region: R1"⟩)
    (failingHandlers ⟨ErrorKind.Unavailable, "dial tcp 10.0.0.7:9200"⟩)
    postRequest getRequest (sampleRequest 5)
    ⟨ErrorKind.NotFound, "no such region: R1"⟩
    ⟨ErrorKind.Unavailable, "dial tcp 10.0.0.7:9200"⟩
    (GoError.wrap "failed to query business types" ⟨ErrorKind.NotFound, "no such region: R1"⟩)
    (GoError.wrap "failed to query business types"
      ⟨ErrorKind.Unavailable, "dial tcp 10.0.0.7:9200"⟩)
    (GoError.wrap "failed to query regions" ⟨ErrorKind.NotFound, "no such region: R1"⟩)
    (GoError.wrap "failed to query regions" ⟨ErrorKind.Unavailable, "dial tcp 10.0.0.7:9200"⟩)
    rfl rfl rfl (by decide) (by decide) rfl rfl rfl rfl rfl rfl rfl

/-! ## GetRegions of the reference store -/

/-- C10: when the query delivers n rows that all scan, and iteration reports no
error, GetRegions returns without error exactly n regions in row order, each
with the id, name and timestamps of its row, its parent absent exactly when the
row has a NULL parent_region_id and otherwise equal to that value; when some
row fails to scan, or iteration reports an error, GetRegions returns an error
and an empty (nil) list. The other query of the store plays no part. -/
theorem getRegions_rows (bts : Except GoError (Rows BusinessType)) :
    (∀ rs : List RegionRow, (∀ row ∈ rs, isInt64 row.parentID.Int64) →
      (PostgresStorage.GetRegions ⟨⟨bts, Except.ok ⟨rs.map Except.ok, none⟩⟩⟩).err = none ∧
      (PostgresStorage.GetRegions ⟨⟨bts, Except.ok ⟨rs.map Except.ok, none⟩⟩⟩).items.length
        = rs.length ∧
      (PostgresStorage.GetRegions ⟨⟨bts, Except.ok ⟨rs.map Except.ok, none⟩⟩⟩).items =
        rs.map (fun row =>
          { ID := row.ID, Name := row.Name,
            ParentRegionID := if row.parentID.Valid then some row.parentID.Int64 else none,
            CreatedAt := row.CreatedAt, UpdatedAt := row.UpdatedAt })) ∧
    (∀ rows : Rows RegionRow, ((∃ e, Except.error e ∈ rows.scans) ∨ rows.err.isSome) →
      (PostgresStorage.GetRegions ⟨⟨bts, Except.ok rows⟩⟩).err.isSome ∧
      (PostgresStorage.GetRegions ⟨⟨bts, Except.ok rows⟩⟩).items = []) := by
  constructor
  · intro rs hrange
    have hs := scanRegions_ok rs []
    have hmap : rs.map regionOfScan = rs.map (fun row =>
        ({ ID := row.ID, Name := row.Name,
           ParentRegionID := if row.parentID.Valid then some row.parentID.Int64 else none,
           CreatedAt := row.CreatedAt, UpdatedAt := row.UpdatedAt } : Region)) := by
      apply List.map_congr_left
      intro row hrow
      unfold regionOfScan
      by_cases hv : row.parentID.Valid
      · simp [hv, intOfInt64_eq _ (hrange row hrow)]
      · simp [hv]
        rfl
    have hres : PostgresStorage.GetRegions ⟨⟨bts, Except.ok ⟨rs.map Except.ok, none⟩⟩⟩ =
        ⟨rs.map regionOfScan, none⟩ := by
      simp [PostgresStorage.GetRegions, hs.2]
      simpa using hs.1
    rw [hres]
    refine ⟨rfl, by simp, hmap⟩
  · intro rows hbad
    by_cases hscan : (scanRegions rows.scans []).err.isSome
    · obtain ⟨e, he⟩ := Option.isSome_iff_exists.mp hscan
      simp [PostgresStorage.GetRegions, he]
    · have hnone : (scanRegions rows.scans []).err = none := by
        simpa using hscan
      rcases hbad with ⟨e, he⟩ | hit
      · exact absurd (scanRegions_failed rows.scans [] e he) hscan
      · obtain ⟨e, he⟩ := Option.isSome_iff_exists.mp hit
        simp [PostgresStorage.GetRegions, hnone, he]

theorem getRegions_rows_witness :
    (PostgresStorage.GetRegions
        ⟨⟨Except.ok ⟨[], none⟩, Except.ok ⟨twoRegionRows.map Except.ok, none⟩⟩⟩).items =
      [{ ID := 1, Name := "Country", ParentRegionID := none, CreatedAt := 100, UpdatedAt := 100 },
       { ID := 2, Name := "CityA", ParentRegionID := some 1, CreatedAt := 200,
         UpdatedAt := 250 }] ∧
    ((PostgresStorage.GetRegions ⟨⟨Except.ok ⟨[], none⟩, Except.ok brokenRows⟩⟩).err.isSome ∧
      (PostgresStorage.GetRegions ⟨⟨Except.ok ⟨[], none⟩, Except.ok brokenRows⟩⟩).items = []) :=
  ⟨((getRegions_rows (Except.ok ⟨[], none⟩)).1 twoRegionRows (by decide)).2.2,
    (getRegions_rows (Except.ok ⟨[], none⟩)).2 brokenRows
      (Or.inl ⟨⟨ErrorKind.Unexpected, "converting NULL to string is unsupported"⟩,
        by simp [brokenRows]⟩)⟩

/-! ## The ranked result of the engine -/

theorem normalizeLimit_defaultLimit (req : RecommendRequest) :
    normalizeLimit (defaultLimit req).Limit = normalizeLimit req.Limit := by
  unfold defaultLimit
  split
  · rename_i h0
    simp [h0, normalizeLimit, engineDefaultLimit, engineMaxLimit]
  · rfl

theorem normalizeLimit_pos (limit : Int) : 0 < normalizeLimit limit := by
  unfold normalizeLimit engineDefaultLimit engineMaxLimit
  split
  · decide
  · split
    · decide
    · omega

theorem rankCandidates_length (e : Engine) (req : RecommendRequest) (limit : Nat)
    (cands : List Location) :
    (rankCandidates e req limit cands).length = min limit cands.length := by
  simp [rankCandidates, List.length_take, List.length_insertionSort]

theorem rankCandidates_sorted (e : Engine) (req : RecommendRequest) (limit : Nat)
    (cands : List Location) :
    (rankCandidates e req limit cands).Pairwise rankedBefore := by
  unfold rankCandidates
  exact List.Pairwise.sublist (List.take_sublist _ _) (List.sorted_insertionSort rankedBefore _)

/-- The handler over the engine of the specification, when the stores answer:
the client receives the ranked candidates. -/
theorem recommend_over_engine (h : Handlers) (e : Engine) (r : HttpRequest)
    (req : RecommendRequest) (region : Region) (scope : List String) (bt : BusinessType)
    (cands : List Location)
    (he : h.esStorage = e.storage)
    (hm : r.Method = "POST") (hd : h.json.decode r.Body = some req)
    (hr : req.Region ≠ "") (hb : req.BusinessType ≠ "")
    (h1 : e.GetRegion req.Region = Except.ok region)
    (h2 : e.ExpandRegion req.Region = Except.ok scope)
    (h3 : e.GetBusinessType req.BusinessType = Except.ok bt)
    (h4 : e.SearchLocations scope req.BusinessType (overFetchFactor * normalizeLimit req.Limit)
      = Except.ok cands)
    (h5 : ∀ p, h.json.encodeErr p = none) :
    (h.RecommendLocations r).response =
      jsonOK (Payload.recommend
        { Locations := rankCandidates e (defaultLimit req) (normalizeLimit req.Limit) cands,
          Total := (rankCandidates e (defaultLimit req) (normalizeLimit req.Limit) cands).length })
    := by
  have hreg := (defaultLimit_region req).1
  have hbt := (defaultLimit_region req).2
  have hrec : h.esStorage.RecommendLocations (defaultLimit req) =
      Except.ok (rankCandidates e (defaultLimit req) (normalizeLimit req.Limit) cands) := by
    rw [he]
    simp [Engine.storage, Engine.Recommend, hreg, hbt, hr, hb, h1, h2, h3,
      normalizeLimit_defaultLimit, h4]
  rw [recommend_accepted h r req hm hd hr hb, hrec]
  simp [writeJSON, h5]

/-- C6: over the engine of the specification, for every accepted request and
every successful index result, the response carries min(limit, number of
candidates) locations, limit being the normalised limit, and so never more
than the normalised limit; Total is that number. -/
theorem recommend_result_length (h : Handlers) (e : Engine) (r : HttpRequest)
    (req : RecommendRequest) (region : Region) (scope : List String) (bt : BusinessType)
    (cands : List Location)
    (he : h.esStorage = e.storage)
    (hm : r.Method = "POST") (hd : h.json.decode r.Body = some req)
    (hr : req.Region ≠ "") (hb : req.BusinessType ≠ "")
    (h1 : e.GetRegion req.Region = Except.ok region)
    (h2 : e.ExpandRegion req.Region = Except.ok scope)
    (h3 : e.GetBusinessType req.BusinessType = Except.ok bt)
    (h4 : e.SearchLocations scope req.BusinessType (overFetchFactor * normalizeLimit req.Limit)
      = Except.ok cands)
    (h5 : ∀ p, h.json.encodeErr p = none) :
    ∃ resp : RecommendResponse,
      (h.RecommendLocations r).response = jsonOK (Payload.recommend resp) ∧
      resp.Locations.length = min (normalizeLimit req.Limit) cands.length ∧
      resp.Locations.length ≤ normalizeLimit req.Limit ∧
      resp.Total = resp.Locations.length := by
  refine ⟨_, recommend_over_engine h e r req region scope bt cands he hm hd hr hb h1 h2 h3 h4 h5,
    ?_, ?_, rfl⟩
  · exact rankCandidates_length _ _ _ _
  · show (rankCandidates _ _ _ _).length ≤ _
    rw [rankCandidates_length]
    exact min_le_left _ _

theorem recommend_result_length_witness :
    ∃ resp : RecommendResponse,
      ((sampleHandlers (sampleRequest 5)).RecommendLocations postRequest).response =
        jsonOK (Payload.recommend resp) ∧
      resp.Locations.length = min (normalizeLimit (sampleRequest 5).Limit) twelveCandidates.length ∧
      resp.Locations.length ≤ normalizeLimit (sampleRequest 5).Limit ∧
      resp.Total = resp.Locations.length :=
  recommend_result_length (sampleHandlers (sampleRequest 5)) sampleEngine postRequest
    (sampleRequest 5) ⟨1, "R1", none, 0, 0⟩ ["R1"] ⟨1, "coffee_shop", "", 0, 0⟩ twelveCandidates
    rfl rfl rfl (by decide) (by decide) rfl rfl rfl rfl (fun _ => rfl)

/-- C7: over the engine of the specification, for every accepted request that
the stores answer, any location of the response has a score at least that of
every location after it, and of two locations with equal score the earlier has
the smaller or equal identifier; and a second request, decoding to the same
request over the same engine, receives the same response. -/
theorem recommend_result_sorted (h h' : Handlers) (e : Engine) (r r' : HttpRequest)
    (req : RecommendRequest) (region : Region) (scope : List String) (bt : BusinessType)
    (cands : List Location)
    (he : h.esStorage = e.storage) (he' : h'.esStorage = e.storage)
    (hm : r.Method = "POST") (hm' : r'.Method = "POST")
    (hd : h.json.decode r.Body = some req) (hd' : h'.json.decode r'.Body = some req)
    (hr : req.Region ≠ "") (hb : req.BusinessType ≠ "")
    (h1 : e.GetRegion req.Region = Except.ok region)
    (h2 : e.ExpandRegion req.Region = Except.ok scope)
    (h3 : e.GetBusinessType req.BusinessType = Except.ok bt)
    (h4 : e.SearchLocations scope req.BusinessType (overFetchFactor * normalizeLimit req.Limit)
      = Except.ok cands)
    (h5 : ∀ p, h.json.encodeErr p = none) (h5' : ∀ p, h'.json.encodeErr p = none) :
    ∃ resp : RecommendResponse,
      (h.RecommendLocations r).response = jsonOK (Payload.recommend resp) ∧
      (h'.RecommendLocations r').response = jsonOK (Payload.recommend resp) ∧
      resp.Locations.Pairwise
        (fun a b => b.Score ≤ a.Score ∧ (a.Score = b.Score → a.ID ≤ b.ID)) := by
  refine ⟨_, recommend_over_engine h e r req region scope bt cands he hm hd hr hb h1 h2 h3 h4 h5,
    recommend_over_engine h' e r' req region scope bt cands he' hm' hd' hr hb h1 h2 h3 h4 h5',
    ?_⟩
  refine List.Pairwise.imp ?_ (rankCandidates_sorted _ _ _ _)
  intro a b hab
  rcases hab with hlt | ⟨heq, hid⟩
  · exact ⟨le_of_lt hlt, fun hc => absurd hlt (by omega)⟩
  · exact ⟨le_of_eq heq.symm, fun _ => String.le_iff_toList_le.mpr hid⟩

theorem recommend_result_sorted_witness :
    ∃ resp : RecommendResponse,
      ((sampleHandlers (sampleRequest 5)).RecommendLocations postRequest).response =
        jsonOK (Payload.recommend resp) ∧
      ((sampleHandlers (sampleRequest 5)).RecommendLocations ⟨"POST", "again", ""⟩).response =
        jsonOK (Payload.recommend resp) ∧
      resp.Locations.Pairwise
        (fun a b => b.Score ≤ a.Score ∧ (a.Score = b.Score → a.ID ≤ b.ID)) :=
  recommend_result_sorted (sampleHandlers (sampleRequest 5)) (sampleHandlers (sampleRequest 5))
    sampleEngine postRequest ⟨"POST", "again", ""⟩
    (sampleRequest 5) ⟨1, "R1", none, 0, 0⟩ ["R1"] ⟨1, "coffee_shop", "", 0, 0⟩ twelveCandidates
    rfl rfl rfl rfl rfl rfl (by decide) (by decide) rfl rfl rfl rfl (fun _ => rfl) (fun _ => rfl)

/-- The response of the scenario of the specification: limit 5 over twelve
candidates gives the five best, the tie at score 9 being broken by identifier. -/
theorem sample_scenario :
    ((sampleHandlers (sampleRequest 5)).RecommendLocations postRequest).response =
      jsonOK (Payload.recommend
        { Locations := [{ candidate "L02" 1 10 0 with Score := 9 },
                        { candidate "L04" 2 12 1 with Score := 9 },
                        { candidate "L06" 0 9 0 with Score := 9 },
                        { candidate "L08" 4 14 1 with Score := 9 },
                        { candidate "L10" 0 9 0 with Score := 9 }],
          Total := 5 }) := by
  decide

end GoEsAnalytical
